import Mathlib

/-!
Shallow embedding of the Telegram shop bot (`src/bot.py`, `src/config.py`).

The embedding keeps the Python names where Lean allows it.  Python strings
become `String`; Python dicts become either association lists
(`List (String × String)` for `answers`, preserving insertion order) or
finite maps `Nat → Option LeadSession` for the per-user session dict
`LEAD_STATE`; exceptions become `Except PyErr`; the module-level globals
(`DATA`, `BOT_LANG`, the OpenAI client, the prompt files, the clock) become
the fields of an `Env` record that is threaded explicitly.

External collaborators are modelled, not reimplemented:
  * the `re` module is an abstract `ReEngine` (a compilation test plus a
    case-insensitive search function); `re.search(p, t, re.IGNORECASE)` on a
    pattern that fails to compile raises `re.error`, which the model renders
    as `Except.error PyErr.reError`;
  * `rapidfuzz.fuzz.token_set_ratio` is an abstract scorer
    `String → String → ℚ` (scores on the 0–100 scale) and
    `rapidfuzz.process.extractOne` is modelled by its documented behaviour:
    scan the choices, keep the strictly best score, first choice wins ties;
  * the OpenAI client is an optional fallible call
    `Option (String → String → Except String String)`;
  * `str.lower` / `str.strip` / `str.split("|")` are modelled by `pyLower`,
    `pyStrip` and `splitPipe` (ASCII plus the Cyrillic block, which covers
    every string the program manipulates).
-/

/-- Python `str.lower` on one character: ASCII letters plus the Cyrillic
letters actually used by the program (А..Я, Ё, Є, І, Ї, Ґ). -/
def pyLowerChar (c : Char) : Char :=
  let n := c.toNat
  if 0x41 ≤ n ∧ n ≤ 0x5A then Char.ofNat (n + 0x20)
  else if 0x410 ≤ n ∧ n ≤ 0x42F then Char.ofNat (n + 0x20)
  else if n = 0x401 then Char.ofNat 0x451
  else if n = 0x404 then Char.ofNat 0x454
  else if n = 0x406 then Char.ofNat 0x456
  else if n = 0x407 then Char.ofNat 0x457
  else if n = 0x490 then Char.ofNat 0x491
  else c

/-- Python `text.lower()`. -/
def pyLower (s : String) : String :=
  String.mk (s.toList.map pyLowerChar)

/-- Whitespace characters stripped by Python `str.strip()`. -/
def isSpaceChar (c : Char) : Bool :=
  c = ' ' ∨ c = '\t' ∨ c = '\n' ∨ c = '\r' ∨ c = '\x0b' ∨ c = '\x0c'

/-- Python `text.strip()`. -/
def pyStrip (s : String) : String :=
  String.mk (((s.toList.dropWhile isSpaceChar).reverse.dropWhile isSpaceChar).reverse)

/-- All suffixes of a character list, longest first (the empty list included). -/
def suffixes : List Char → List (List Char)
  | [] => [[]]
  | c :: rest => (c :: rest) :: suffixes rest

/-- Python `needle in hay` on strings: substring containment. -/
def strContains (needle hay : String) : Bool :=
  (suffixes hay.toList).any (fun t => needle.toList.isPrefixOf t)

/-- Helper for `splitPipe`: Python `str.split` grouping on a character list. -/
def splitOnPipeAux : List Char → List (List Char)
  | [] => [[]]
  | c :: rest =>
    let r := splitOnPipeAux rest
    if c = '|' then [] :: r
    else
      match r with
      | [] => [[c]]
      | g :: gs => (c :: g) :: gs

/-- Python `s.split("|")` (so `"" ↦ [""]`, and empty groups are kept). -/
def splitPipe (s : String) : List String :=
  (splitOnPipeAux s.toList).map String.mk

/-- Python dict assignment `d[k] = v` on an insertion-ordered association
list: update the first binding of `k` in place, else append. -/
def setKey : List (String × String) → String → String → List (String × String)
  | [], k, v => [(k, v)]
  | (k0, v0) :: rest, k, v =>
    if k0 = k then (k0, v) :: rest else (k0, v0) :: setKey rest k v

/-- Python dict lookup `d.get(k)` on an association list. -/
def getKey : List (String × String) → String → Option String
  | [], _ => none
  | (k0, v0) :: rest, k => if k0 = k then some v0 else getKey rest k

/-- Python `list.index(x)` (first index of `x`; length when absent). -/
def idxOfStr (s : String) : List String → Nat
  | [] => 0
  | c :: cs => if c = s then 0 else idxOfStr s cs + 1

/-! ## Data model (`DATA`, the sessions, the persisted rows) -/

/-- One entry of `DATA["faq"]`: a pipe-delimited pattern string and answer. -/
structure FaqItem where
  q : String
  a : String
deriving DecidableEq, Repr

/-- One entry of `DATA["leads"]["fields"]`. -/
structure LeadField where
  name : String
  label : String
deriving DecidableEq, Repr

/-- `DATA["company"]`: the two facts the router reads. -/
structure Company where
  phone : String
  work_hours : String
deriving DecidableEq, Repr

/-- The knowledge base `DATA` (loaded once from `faq.yaml`, read-only). -/
structure KB where
  faq : List FaqItem
  leadFields : List LeadField
  company : Company
deriving DecidableEq, Repr

/-- One value of the per-user dict `LEAD_STATE`:
`{"step": int, "answers": dict}`. -/
structure LeadSession where
  step : Nat
  answers : List (String × String)
deriving DecidableEq, Repr

/-- One row appended to `leads.csv` by `save_lead` (the header line is a
fixed six-column list; a row is described by its six cell values). -/
structure LeadRow where
  timestamp : String
  user_id : Nat
  username : String
  full_name : String
  phone : String
  note : String
deriving DecidableEq, Repr

/-- The mutable module state: `LEAD_STATE` and the rows of `leads.csv`. -/
structure BotState where
  sessions : Nat → Option LeadSession
  leads : List LeadRow

/-- Python exceptions the embedded code can raise. -/
inductive PyErr where
  | indexError
  | reError
deriving DecidableEq, Repr

instance {ε α : Type} [DecidableEq ε] [DecidableEq α] : DecidableEq (Except ε α) := fun a b =>
  match a, b with
  | .ok x, .ok y => if h : x = y then .isTrue (by rw [h]) else .isFalse (by simp [h])
  | .error x, .error y => if h : x = y then .isTrue (by rw [h]) else .isFalse (by simp [h])
  | .ok _, .error _ => .isFalse (by simp)
  | .error _, .ok _ => .isFalse (by simp)

/-- Model of the `re` module: which pattern strings compile, and what a
case-insensitive `re.search` of a compiled pattern returns. -/
structure ReEngine where
  compiles : String → Bool
  searchCI : String → String → Bool

/-- `re.search(p, t, re.IGNORECASE)`: raises `re.error` when `p` does not
compile, else reports whether the pattern matches anywhere in `t`. -/
def reSearch (E : ReEngine) (p t : String) : Except PyErr Bool :=
  if E.compiles p then .ok (E.searchCI p t) else .error .reError

/-- The module globals of `bot.py` plus the clock: knowledge base,
`BOT_LANG`, the optional OpenAI client, the two prompt blobs, and the
timestamp `datetime.datetime.utcnow().isoformat()` would produce. -/
structure Env where
  kb : KB
  botLang : String
  client : Option (String → String → Except String String)
  sysPrompt : String
  kbSerialized : String
  scorer : String → String → ℚ
  engine : ReEngine
  ts : String

/-! ## `detect_lang` (bot.py lines 30–36) -/

/-- The `ru_markers` list of `detect_lang`. -/
def ru_markers : List String :=
  ["привет", "здравствуйте", "сколько", "цена", "доставка", "адрес", "меню",
   "оплата", "резерв"]

/-- The `uk_markers` list of `detect_lang`. -/
def uk_markers : List String :=
  ["привіт", "скільки", "ціна", "доставка", "адреса", "меню", "оплата",
   "бронювання", "режим"]

/-- `detect_lang` (bot.py 30–36): count the marker words of each language
contained in the lower-cased text; `"ru"` on a strictly higher Russian
count, else `"uk"`. -/
def detect_lang (text : String) : String :=
  let score_ru := List.countP (fun w => strContains w (pyLower text)) ru_markers
  let score_uk := List.countP (fun w => strContains w (pyLower text)) uk_markers
  if score_ru > score_uk then "ru" else "uk"

/-! ## `faq_answer` (bot.py lines 45–58) -/

/-- The inner pattern loop of `faq_answer` (bot.py 49–51): search the
stripped sub-patterns in order; a match returns true, a malformed pattern
raises. -/
def scanPatterns (E : ReEngine) (t : String) : List String → Except PyErr Bool
  | [] => .ok false
  | p :: ps =>
    match reSearch E (pyStrip p) t with
    | .error e => .error e
    | .ok true => .ok true
    | .ok false => scanPatterns E t ps

/-- The outer rule loop of `faq_answer` (bot.py 47–51): first entry whose
pipe-delimited pattern list matches wins. -/
def scanFaq (E : ReEngine) (t : String) : List FaqItem → Except PyErr (Option String)
  | [] => .ok none
  | item :: rest =>
    match scanPatterns E t (splitPipe item.q) with
    | .error e => .error e
    | .ok true => .ok (some item.a)
    | .ok false => scanFaq E t rest

/-- Model of `rapidfuzz.process.extractOne(query, choices, scorer)`:
best `(choice, score)` pair, the first choice winning ties; `none` on an
empty choice list. -/
def extractOne (scorer : String → String → ℚ) (query : String) :
    List String → Option (String × ℚ)
  | [] => none
  | c :: cs =>
    match extractOne scorer query cs with
    | none => some (c, scorer query c)
    | some (c2, s2) =>
      if s2 > scorer query c then some (c2, s2) else some (c, scorer query c)

/-- `faq_answer` (bot.py 45–58): rule phase over `DATA["faq"]`, then the
fuzzy phase with `token_set_ratio` and `qlist.index`, threshold-gated. -/
def faq_answer (E : ReEngine) (scorer : String → String → ℚ) (kb : KB)
    (user_text : String) (threshold : ℚ) : Except PyErr (Option String) :=
  match scanFaq E user_text kb.faq with
  | .error e => .error e
  | .ok (some a) => .ok (some a)
  | .ok none =>
    let qlist := kb.faq.map (fun i => i.q)
    match extractOne scorer user_text qlist with
    | some best =>
      if best.2 ≥ threshold then
        match kb.faq.get? (idxOfStr best.1 qlist) with
        | some item => .ok (some item.a)
        | none => .error .indexError
      else .ok none
    | none => .ok none

/-! ## `gen_ai_reply` (bot.py lines 60–84) -/

/-- The Russian canned fallback sentence (bot.py 82). -/
def ruFallback : String :=
  "Я уточню у менеджера і вернусь с ответом. Могу оформить заявку на звонок? Напишите телефон."

/-- The Ukrainian canned fallback sentence (bot.py 84). -/
def ukFallback : String :=
  "Уточню у менеджера і повернуся з відповіддю. Можу оформити заявку на дзвінок? Напишіть номер."

/-- `gen_ai_reply` (bot.py 60–84): effective language is the hint when
truthy else `detect_lang`; with a configured client whose call succeeds
return the stripped completion, on any client failure or an absent client
fall through to the canned sentence chosen by the effective language. -/
def gen_ai_reply (client : Option (String → String → Except String String))
    (sysPrompt kbSerialized : String) (user_text lang_hint : String) : String :=
  let user_lang := if lang_hint ≠ "" then lang_hint else detect_lang user_text
  let system := sysPrompt ++ "\n\nYAML:\n" ++ kbSerialized ++
    "\n\nLanguage to respond: " ++ user_lang
  let fallback := if user_lang = "ru" then ruFallback else ukFallback
  match client with
  | some call =>
    match call system user_text with
    | .ok r => pyStrip r
    | .error _ => fallback
  | none => fallback

/-! ## `save_lead` (bot.py lines 86–92) -/

/-- `save_lead` (bot.py 86–92): the appended CSV row — timestamp, ids, and
`answers.get` of exactly the three keys `full_name`, `phone`, `note`
(empty string when absent). -/
def save_lead (ts : String) (user_id : Nat) (username : String)
    (answers : List (String × String)) : LeadRow :=
  ⟨ts, user_id, username,
    (getKey answers "full_name").getD "",
    (getKey answers "phone").getD "",
    (getKey answers "note").getD ""⟩

/-- The answer cell of a persisted row under a lead-field name: the row has
columns only for `full_name`, `phone` and `note`. -/
def rowLookup (r : LeadRow) (col : String) : Option String :=
  if col = "full_name" then some r.full_name
  else if col = "phone" then some r.phone
  else if col = "note" then some r.note
  else none

/-! ## The handlers (bot.py lines 112–162) -/

/-- The completion message of the lead flow (bot.py 137). -/
def doneMsg (lang : String) : String :=
  if lang = "uk" then "Дякуємо! Заявку передано менеджеру. Ми на зв\x27язку 👌"
  else "Спасибо! Заявка передана менеджеру. Мы на связи 👌"

/-- The `/lead` handler (bot.py 112–116): overwrite the user's session with
`{"step": 0, "answers": {}}`, then emit `fields[0]["label"]` — an
`IndexError` when the field list is empty, after the session was created. -/
def leadCmd (kb : KB) (st : BotState) (user_id : Nat) :
    BotState × Except PyErr (List String) :=
  let st2 : BotState :=
    ⟨fun u => if u = user_id then some ⟨0, []⟩ else st.sessions u, st.leads⟩
  match kb.leadFields.get? 0 with
  | some f => (st2, .ok [f.label])
  | none => (st2, .error .indexError)

/-- The lead-flow block of `text_router` (bot.py 127–141), entered when the
user has a session: record the trimmed text under the current field's name,
advance the step; on reaching the field count persist the row, delete the
session and thank; otherwise prompt the next label.  `fields[step]` out of
range raises `IndexError`. -/
def leadFlowStep (kb : KB) (botLang ts : String) (st : BotState)
    (user_id : Nat) (username : String) (text : String) (state : LeadSession) :
    BotState × Except PyErr (List String) :=
  let lang := if botLang = "uk" ∨ botLang = "ru" then botLang else detect_lang text
  match kb.leadFields.get? state.step with
  | none => (st, .error .indexError)
  | some fld =>
    let answers2 := setKey state.answers fld.name text
    let step2 := state.step + 1
    if step2 ≥ kb.leadFields.length then
      (⟨fun u => if u = user_id then none else st.sessions u,
        st.leads ++ [save_lead ts user_id username answers2]⟩,
       .ok [doneMsg lang])
    else
      match kb.leadFields.get? step2 with
      | some fld2 =>
        (⟨fun u => if u = user_id then some ⟨step2, answers2⟩ else st.sessions u,
          st.leads⟩, .ok [fld2.label])
      | none =>
        (⟨fun u => if u = user_id then some ⟨step2, answers2⟩ else st.sessions u,
          st.leads⟩, .error .indexError)

/-- `text_router` (bot.py 118–162): ignore empty raw text, strip, compute
the language; an active session is delegated to the lead flow; else the
quick-reply phrases; else `faq_answer`; else `gen_ai_reply`. -/
def text_router (env : Env) (st : BotState) (user_id : Nat)
    (username rawText : String) : BotState × Except PyErr (List String) :=
  if rawText = "" then (st, .ok []) else
  let text := pyStrip rawText
  let lang := if env.botLang = "uk" ∨ env.botLang = "ru" then env.botLang
              else detect_lang text
  match st.sessions user_id with
  | some state => leadFlowStep env.kb env.botLang env.ts st user_id username text state
  | none =>
    let lower := pyLower text
    if lower = "залишити заявку" ∨ lower = "оставить заявку" then
      leadCmd env.kb st user_id
    else if lower = "контакти" ∨ lower = "контакты" then
      (st, .ok ["Телефон: " ++ env.kb.company.phone])
    else if lower = "години роботи" ∨ lower = "часы работы" then
      (st, .ok [env.kb.company.work_hours])
    else
      match faq_answer env.engine env.scorer env.kb text 78 with
      | .error e => (st, .error e)
      | .ok (some ans) => (st, .ok [ans])
      | .ok none =>
        (st, .ok [gen_ai_reply env.client env.sysPrompt env.kbSerialized text lang])

/-- Feed a list of inbound texts from one user through `text_router`,
threading the state. -/
def runTexts (env : Env) (uid : Nat) (uname : String) :
    BotState → List String → BotState
  | st, [] => st
  | st, t :: more => runTexts env uid uname (text_router env st uid uname t).1 more

/-- The answers dict produced by running the lead flow from `step = s` with
accumulated answers `a` over a list of raw texts (each stripped, recorded
under the field name at the running step). -/
def collectFrom (fields : List LeadField) : Nat → List (String × String) →
    List String → List (String × String)
  | _, a, [] => a
  | s, a, t :: more =>
    match fields.get? s with
    | some fld => collectFrom fields (s + 1) (setKey a fld.name (pyStrip t)) more
    | none => a

/-! ## Spec-side definitions and concrete instances -/

/-- Per-tag marker count, as the spec words it: the number of marker words
of the tag contained (exact substring containment) in the lower-cased
text. -/
def tagCount (markers : List String) (text : String) : Nat :=
  List.countP (fun w => strContains w (pyLower text)) markers

/-- The language detector as the spec states it: return the tag with the
strictly higher marker count; ties (including empty input) resolve to the
secondary default tag `"uk"`. -/
def detectSpec (text : String) : String :=
  if tagCount ru_markers text > tagCount uk_markers text then "ru"
  else if tagCount uk_markers text > tagCount ru_markers text then "uk"
  else "uk"

/-- The per-user session invariant of the spec:
`0 <= step <= len(leadFields)` for every stored session (the lower bound is
carried by `Nat`). -/
def SessionInv (kb : KB) (st : BotState) : Prop :=
  ∀ uid s, st.sessions uid = some s → s.step ≤ kb.leadFields.length

/-- A concrete regex-engine instance: every pattern except `"("` compiles,
and a compiled pattern matches by case-insensitive literal containment. -/
def litEngine : ReEngine :=
  ⟨fun p => p ≠ "(", fun p t => strContains (pyLower p) (pyLower t)⟩

/-- A concrete scorer that gives every pair score 0. -/
def zeroScorer : String → String → ℚ := fun _ _ => 0

/-- A concrete scorer that gives every pair score 100. -/
def hiScorer : String → String → ℚ := fun _ _ => 100

/-- A concrete scorer preferring the question text `"ціна"`. -/
def pickScorer : String → String → ℚ := fun _ q => if q = "ціна" then 90 else 10

/-- A knowledge base whose first FAQ pattern is malformed and whose second
entry matches the literal `hi`. -/
def kbBadFirst : KB := ⟨[⟨"(", "A"⟩, ⟨"hi", "B"⟩], [], ⟨"", ""⟩⟩

/-- A knowledge base with a single malformed FAQ pattern. -/
def kbBadOnly : KB := ⟨[⟨"(", "A"⟩], [], ⟨"", ""⟩⟩

/-- A well-formed two-entry knowledge base. -/
def kbDelivery : KB :=
  ⟨[⟨"доставка|delivery", "Доставка 1-2 дні"⟩, ⟨"ціна", "Від 100 грн"⟩], [],
   ⟨"", ""⟩⟩

/-- A one-entry FAQ list whose pattern never matches the test utterances. -/
def kbPre : List FaqItem := [⟨"ціна", "Ц"⟩]

/-- An FAQ entry whose second sub-pattern is malformed. -/
def badItem : FaqItem := ⟨"a|(", "X"⟩

/-- An environment built from a knowledge base: `BOT_LANG = "uk"`, no
OpenAI client, the concrete engine and the zero scorer. -/
def mkEnv (kb : KB) : Env := ⟨kb, "uk", none, "", "", zeroScorer, litEngine, "T0"⟩

/-- The three-field lead interview matching the persisted columns. -/
def kbFields3 : KB :=
  ⟨[], [⟨"full_name", "Як вас звати?"⟩, ⟨"phone", "Телефон?"⟩,
        ⟨"note", "Коментар?"⟩], ⟨"", ""⟩⟩

/-- A knowledge base whose single lead field is named `email`. -/
def kbEmail : KB := ⟨[], [⟨"email", "Ваш email?"⟩], ⟨"", ""⟩⟩

/-- A knowledge base with an empty lead-field list. -/
def kbNoFields : KB := ⟨[], [], ⟨"+380501112233", "9:00-18:00"⟩⟩

/-- The initial state: no sessions, no persisted rows. -/
def emptyState : BotState := ⟨fun _ => none, []⟩

/-- A knowledge base sharing `kbFields3`'s lead fields but with different
FAQ entries and company data. -/
def kbFields3b : KB := ⟨[⟨"контакти", "B"⟩], kbFields3.leadFields, ⟨"+380", "24/7"⟩⟩

/-- The environment of the three-field interview. -/
def envA : Env := mkEnv kbFields3

/-- An environment differing from `envA` in everything except the lead
fields, `BOT_LANG` and the clock: other FAQ entries and company data, a
configured client, a different scorer and engine. -/
def envB : Env :=
  ⟨kbFields3b, "uk", some (fun _ _ => Except.ok "LLM"), "SYS", "Y", hiScorer,
   ⟨fun _ => true, fun _ _ => true⟩, "T0"⟩

/-- A state where user 7 has a fresh session. -/
def stActive : BotState := ⟨fun u => if u = 7 then some ⟨0, []⟩ else none, []⟩

/-- A state where user 7 is one answer away from completing the three-field
interview. -/
def stNear : BotState :=
  ⟨fun u => if u = 7 then
      some ⟨2, [("full_name", "Олена"), ("phone", "0501234567")]⟩
    else none, []⟩

/-! ## Association-list lemmas -/

theorem getKey_setKey_self (a : List (String × String)) (k v : String) :
    getKey (setKey a k v) k = some v := by
  induction a with
  | nil => simp [setKey, getKey]
  | cons p rest ih =>
    obtain ⟨k0, v0⟩ := p
    by_cases h : k0 = k
    · simp [setKey, getKey, h]
    · simp [setKey, getKey, h, ih]

theorem getKey_setKey_ne (a : List (String × String)) (k k' v : String)
    (h : k' ≠ k) : getKey (setKey a k' v) k = getKey a k := by
  induction a with
  | nil => simp [setKey, getKey, h]
  | cons p rest ih =>
    obtain ⟨k0, v0⟩ := p
    by_cases h0 : k0 = k'
    · subst h0
      simp [setKey, getKey, h]
    · simp only [setKey, if_neg h0]
      by_cases h1 : k0 = k
      · simp [getKey, h1]
      · simp [getKey, h1, ih]

/-! ## Rule-phase lemmas -/

theorem scanPatterns_eq_any (E : ReEngine) (t : String) (ps : List String)
    (h : ∀ p ∈ ps, E.compiles (pyStrip p) = true) :
    scanPatterns E t ps = .ok (ps.any (fun p => E.searchCI (pyStrip p) t)) := by
  induction ps with
  | nil => rfl
  | cons p ps ih =>
    have h1 : E.compiles (pyStrip p) = true := h p (by clear * -; simp)
    have ih2 := ih (fun q hq => h q (by clear * - hq; simp [hq]))
    by_cases h2 : E.searchCI (pyStrip p) t = true
    · simp [scanPatterns, reSearch, h1, h2]
    · simp only [Bool.not_eq_true] at h2
      simp [scanPatterns, reSearch, h1, h2, ih2]

theorem scanFaq_eq_first (E : ReEngine) (t : String) (items : List FaqItem)
    (h : ∀ item ∈ items, ∀ p ∈ splitPipe item.q, E.compiles (pyStrip p) = true)
    (hm : ∃ item ∈ items, ∃ p ∈ splitPipe item.q, E.searchCI (pyStrip p) t = true) :
    ∃ pre item post, items = pre ++ item :: post
      ∧ (∀ it2 ∈ pre, ∀ p ∈ splitPipe it2.q, E.searchCI (pyStrip p) t = false)
      ∧ (∃ p ∈ splitPipe item.q, E.searchCI (pyStrip p) t = true)
      ∧ scanFaq E t items = .ok (some item.a) := by
  induction items with
  | nil => obtain ⟨item, hmem, -⟩ := hm; exact absurd hmem (by simp)
  | cons it0 rest ih =>
    have hany := scanPatterns_eq_any E t (splitPipe it0.q)
      (h it0 (by clear * -; simp))
    by_cases h0 : (splitPipe it0.q).any (fun p => E.searchCI (pyStrip p) t) = true
    · refine ⟨[], it0, rest, rfl, by simp, ?_, ?_⟩
      · simpa using h0
      · simp [scanFaq, hany, h0]
    · simp only [Bool.not_eq_true] at h0
      have hrest : ∃ item ∈ rest, ∃ p ∈ splitPipe item.q,
          E.searchCI (pyStrip p) t = true := by
        obtain ⟨item, hmem, p, hp, hsp⟩ := hm
        rcases List.mem_cons.mp hmem with h' | h'
        · subst h'
          exfalso
          have : (splitPipe item.q).any (fun p => E.searchCI (pyStrip p) t) = true :=
            List.any_eq_true.mpr ⟨p, hp, hsp⟩
          rw [h0] at this
          exact Bool.false_ne_true this
        · exact ⟨item, h', p, hp, hsp⟩
      obtain ⟨pre, item, post, heq, hpre, hmat, hscan⟩ :=
        ih (fun it2 h2 => h it2 (by simp [h2])) hrest
      refine ⟨it0 :: pre, item, post, by simp [heq], ?_, hmat, ?_⟩
      · intro it2 h2 p hp
        rcases List.mem_cons.mp h2 with h' | h'
        · subst h'
          have h3 := (List.any_eq_false.mp h0) p hp
          simp only [Bool.not_eq_true] at h3
          exact h3
        · exact hpre it2 h' p hp
      · simp [scanFaq, hany, h0, hscan]

theorem scanFaq_ok_none (E : ReEngine) (t : String) (items : List FaqItem)
    (h : ∀ item ∈ items, ∀ p ∈ splitPipe item.q,
      E.compiles (pyStrip p) = true ∧ E.searchCI (pyStrip p) t = false) :
    scanFaq E t items = .ok none := by
  induction items with
  | nil => rfl
  | cons it0 rest ih =>
    have hany := scanPatterns_eq_any E t (splitPipe it0.q)
      (fun p hp => (h it0 (by clear * -; simp) p hp).1)
    have h0 : (splitPipe it0.q).any (fun p => E.searchCI (pyStrip p) t) = false :=
      List.any_eq_false.mpr (fun p hp => by
        simp [(h it0 (by clear * - hp; simp) p hp).2])
    simp [scanFaq, hany, h0, ih (fun it2 h2 => h it2 (by simp [h2]))]

/-! ## Fuzzy-phase lemmas -/

theorem extractOne_eq_none (scorer : String → String → ℚ) (q : String)
    (qs : List String) : extractOne scorer q qs = none ↔ qs = [] := by
  cases qs with
  | nil => simp [extractOne]
  | cons c cs =>
    simp only [extractOne]
    cases h : extractOne scorer q cs with
    | none => simp
    | some p =>
      obtain ⟨c2, s2⟩ := p
      by_cases hgt : s2 > scorer q c
      · simp [hgt]
      · simp [hgt]

theorem extractOne_spec (scorer : String → String → ℚ) (q : String) :
    ∀ (qs : List String) (c : String) (s : ℚ), extractOne scorer q qs = some (c, s) →
      s = scorer q c
      ∧ ∃ i, qs.get? i = some c
        ∧ (∀ j x, qs.get? j = some x → scorer q x ≤ s)
        ∧ (∀ j x, j < i → qs.get? j = some x → scorer q x < s) := by
  intro qs
  induction qs with
  | nil => intro c s h; simp [extractOne] at h
  | cons c0 cs ih =>
    intro c s h
    cases hrec : extractOne scorer q cs with
    | none =>
      have hcs : cs = [] := (extractOne_eq_none scorer q cs).mp hrec
      simp only [extractOne, hrec, Option.some.injEq, Prod.mk.injEq] at h
      obtain ⟨hc, hs⟩ := h
      subst hcs
      refine ⟨by rw [← hc, ← hs], 0, by simp [hc], ?_, by omega⟩
      intro j x hj
      cases j with
      | zero =>
        simp only [List.get?, Option.some.injEq] at hj
        rw [← hj, ← hs]
      | succ n => simp at hj
    | some p =>
      obtain ⟨c2, s2⟩ := p
      obtain ⟨hs2, i, hget, hmax, hfirst⟩ := ih c2 s2 hrec
      simp only [extractOne, hrec] at h
      by_cases hgt : s2 > scorer q c0
      · rw [if_pos hgt] at h
        simp only [Option.some.injEq, Prod.mk.injEq] at h
        obtain ⟨hc, hs⟩ := h
        subst hc hs
        refine ⟨hs2, i + 1, by simpa using hget, ?_, ?_⟩
        · intro j x hj
          cases j with
          | zero =>
            simp only [List.get?, Option.some.injEq] at hj
            rw [← hj]; exact le_of_lt hgt
          | succ n => exact hmax n x (by simpa using hj)
        · intro j x hji hj
          cases j with
          | zero =>
            simp only [List.get?, Option.some.injEq] at hj
            rw [← hj]; exact hgt
          | succ n => exact hfirst n x (by omega) (by simpa using hj)
      · rw [if_neg hgt] at h
        simp only [Option.some.injEq, Prod.mk.injEq] at h
        obtain ⟨hc, hs⟩ := h
        subst hc hs
        push_neg at hgt
        refine ⟨rfl, 0, by simp, ?_, by omega⟩
        intro j x hj
        cases j with
        | zero =>
          simp only [List.get?, Option.some.injEq] at hj
          rw [← hj]
        | succ n => exact le_trans (hmax n x (by simpa using hj)) hgt

theorem idxOfStr_spec (s : String) :
    ∀ qs : List String, s ∈ qs →
      qs.get? (idxOfStr s qs) = some s
      ∧ ∀ j, j < idxOfStr s qs → qs.get? j ≠ some s := by
  intro qs
  induction qs with
  | nil => intro h; exact absurd h (by simp)
  | cons c cs ih =>
    intro hmem
    by_cases h : c = s
    · subst h
      simp [idxOfStr]
    · have hcs : s ∈ cs := by
        rcases List.mem_cons.mp hmem with h' | h'
        · exact absurd h'.symm h
        · exact h'
      obtain ⟨h1, h2⟩ := ih hcs
      refine ⟨by simpa [idxOfStr, h] using h1, ?_⟩
      intro j hj
      simp only [idxOfStr, if_neg h] at hj
      cases j with
      | zero => simp; exact fun hc => h hc
      | succ n => simpa using h2 n (by omega)

theorem scanPatterns_error (E : ReEngine) (t : String) (ps1 ps2 : List String)
    (badp : String)
    (h1 : ∀ p ∈ ps1, E.compiles (pyStrip p) = true ∧ E.searchCI (pyStrip p) t = false)
    (hb : E.compiles (pyStrip badp) = false) :
    scanPatterns E t (ps1 ++ badp :: ps2) = .error .reError := by
  induction ps1 with
  | nil => simp [scanPatterns, reSearch, hb]
  | cons p ps ih =>
    obtain ⟨hp1, hp2⟩ := h1 p (by clear * -; simp)
    simp [scanPatterns, reSearch, hp1, hp2,
      ih (fun q hq => h1 q (by clear * - hq; simp [hq]))]

theorem scanFaq_error_append (E : ReEngine) (t : String) (kb1 kb2 : List FaqItem)
    (bad : FaqItem)
    (h1 : ∀ item ∈ kb1, ∀ p ∈ splitPipe item.q,
      E.compiles (pyStrip p) = true ∧ E.searchCI (pyStrip p) t = false)
    (hbad : scanPatterns E t (splitPipe bad.q) = .error .reError) :
    scanFaq E t (kb1 ++ bad :: kb2) = .error .reError := by
  induction kb1 with
  | nil => simp [scanFaq, hbad]
  | cons it0 rest ih =>
    have hany := scanPatterns_eq_any E t (splitPipe it0.q)
      (fun p hp => (h1 it0 (by clear * -; simp) p hp).1)
    have h0 : (splitPipe it0.q).any (fun p => E.searchCI (pyStrip p) t) = false :=
      List.any_eq_false.mpr (fun p hp => by
        simp [(h1 it0 (by clear * - hp; simp) p hp).2])
    simp [scanFaq, hany, h0, ih (fun it2 h2 => h1 it2 (by simp [h2]))]

/-- Claim C3 (amended: provided every sub-pattern in the knowledge base
compiles — a malformed sub-pattern instead makes `faq_answer` raise, see the
counterexample): an utterance matching some pipe-delimited sub-pattern makes
`faq_answer` return the answer of the first entry (knowledge-base order)
with a matching sub-pattern, and the result does not depend on the fuzzy
scorer — the fuzzy phase is not consulted. -/
theorem faq_rule_first_wins (E : ReEngine) (scorer scorer2 : String → String → ℚ)
    (kb : KB) (t : String) (thr : ℚ)
    (hc : ∀ item ∈ kb.faq, ∀ p ∈ splitPipe item.q, E.compiles (pyStrip p) = true)
    (hm : ∃ item ∈ kb.faq, ∃ p ∈ splitPipe item.q, E.searchCI (pyStrip p) t = true) :
    ∃ pre item post, kb.faq = pre ++ item :: post
      ∧ (∀ it2 ∈ pre, ∀ p ∈ splitPipe it2.q, E.searchCI (pyStrip p) t = false)
      ∧ (∃ p ∈ splitPipe item.q, E.searchCI (pyStrip p) t = true)
      ∧ faq_answer E scorer kb t thr = .ok (some item.a)
      ∧ faq_answer E scorer kb t thr = faq_answer E scorer2 kb t thr := by
  obtain ⟨pre, item, post, heq, hpre, hmat, hscan⟩ := scanFaq_eq_first E t kb.faq hc hm
  exact ⟨pre, item, post, heq, hpre, hmat, by simp [faq_answer, hscan],
    by simp [faq_answer, hscan]⟩

/-- Claim C4 (amended: provided every sub-pattern in the knowledge base
compiles — a malformed sub-pattern instead makes `faq_answer` raise, see the
counterexample): when no sub-pattern matches, `faq_answer` scores every
entry's question text with the fuzzy scorer, selects the first entry with
the highest score, returns its answer when the best score reaches the
threshold (default 78) and `none` (noMatch) below it. -/
theorem faq_fuzzy_threshold (E : ReEngine) (scorer : String → String → ℚ)
    (kb : KB) (t : String) (thr : ℚ)
    (hc : ∀ item ∈ kb.faq, ∀ p ∈ splitPipe item.q, E.compiles (pyStrip p) = true)
    (hnm : ∀ item ∈ kb.faq, ∀ p ∈ splitPipe item.q, E.searchCI (pyStrip p) t = false) :
    (kb.faq = [] → faq_answer E scorer kb t thr = .ok none)
    ∧ (kb.faq ≠ [] → ∃ i item, kb.faq.get? i = some item
        ∧ (∀ j it2, kb.faq.get? j = some it2 → scorer t it2.q ≤ scorer t item.q)
        ∧ (∀ j it2, j < i → kb.faq.get? j = some it2 → scorer t it2.q < scorer t item.q)
        ∧ (scorer t item.q ≥ thr → faq_answer E scorer kb t thr = .ok (some item.a))
        ∧ (scorer t item.q < thr → faq_answer E scorer kb t thr = .ok none)) := by
  have hscan : scanFaq E t kb.faq = .ok none :=
    scanFaq_ok_none E t kb.faq (fun item hi p hp => ⟨hc item hi p hp, hnm item hi p hp⟩)
  constructor
  · intro hemp
    simp [faq_answer, hemp, scanFaq, extractOne]
  · intro hne
    have hqne : kb.faq.map (fun i => i.q) ≠ [] := by simpa using hne
    cases hext : extractOne scorer t (kb.faq.map (fun i => i.q)) with
    | none => exact absurd ((extractOne_eq_none scorer t _).mp hext) hqne
    | some p =>
      obtain ⟨c, s⟩ := p
      obtain ⟨hs, i, hgi, hmax, hfirst⟩ := extractOne_spec scorer t _ c s hext
      have hcmem : c ∈ kb.faq.map (fun i => i.q) := List.get?_mem hgi
      obtain ⟨hidx, hbefore⟩ := idxOfStr_spec c _ hcmem
      rw [List.get?_map] at hidx
      cases hfi : kb.faq.get? (idxOfStr c (kb.faq.map (fun i => i.q))) with
      | none => rw [hfi] at hidx; simp at hidx
      | some item0 =>
        rw [hfi] at hidx
        simp only [Option.map_some', Option.some.injEq] at hidx
        have hsc : scorer t item0.q = s := by rw [hidx, hs]
        have hile : idxOfStr c (kb.faq.map (fun i => i.q)) ≤ i := by
          by_contra hlt
          push_neg at hlt
          exact hbefore i hlt hgi
        refine ⟨_, item0, hfi, ?_, ?_, ?_, ?_⟩
        · intro j it2 hj
          have hq : (kb.faq.map (fun i => i.q)).get? j = some it2.q := by
            rw [List.get?_map, hj]; rfl
          rw [hsc]
          exact hmax j it2.q hq
        · intro j it2 hji hj
          have hq : (kb.faq.map (fun i => i.q)).get? j = some it2.q := by
            rw [List.get?_map, hj]; rfl
          rw [hsc]
          exact hfirst j it2.q (by omega) hq
        · intro hthr
          rw [hsc] at hthr
          have hfi2 : kb.faq[idxOfStr c (List.map (fun i => i.q) kb.faq)]? = some item0 := by
            rw [← List.get?_eq_getElem?]
            exact hfi
          simp [faq_answer, hscan, hext, hfi2, hthr]
        · intro hthr
          rw [hsc] at hthr
          have hnt : ¬ (s ≥ thr) := not_le.mpr hthr
          simp [faq_answer, hscan, hext, hnt]

/-- Claim C5 (amended): a malformed (non-compiling) sub-pattern is not
skipped — when the rule scan reaches it without an earlier successful
match, `faq_answer` propagates the regex-compilation error instead of
continuing with the remaining patterns and entries. -/
theorem faq_malformed_raises (E : ReEngine) (scorer : String → String → ℚ)
    (thr : ℚ) (kb1 kb2 : List FaqItem) (bad : FaqItem) (lf : List LeadField)
    (co : Company) (t : String) (ps1 ps2 : List String) (badp : String)
    (hsplit : splitPipe bad.q = ps1 ++ badp :: ps2)
    (h1 : ∀ item ∈ kb1, ∀ p ∈ splitPipe item.q,
      E.compiles (pyStrip p) = true ∧ E.searchCI (pyStrip p) t = false)
    (h2 : ∀ p ∈ ps1, E.compiles (pyStrip p) = true ∧ E.searchCI (pyStrip p) t = false)
    (hb : E.compiles (pyStrip badp) = false) :
    faq_answer E scorer ⟨kb1 ++ bad :: kb2, lf, co⟩ t thr = .error .reError := by
  have hbad : scanPatterns E t (splitPipe bad.q) = .error .reError := by
    rw [hsplit]
    exact scanPatterns_error E t ps1 ps2 badp h2 hb
  have hscan : scanFaq E t (kb1 ++ bad :: kb2) = .error .reError :=
    scanFaq_error_append E t kb1 kb2 bad h1 hbad
  simp [faq_answer, hscan]

/-- Claim C3 counterexample: in `kbBadFirst` the utterance `"oh hi"`
case-insensitively matches the sub-pattern `hi` of the second entry, yet
`faq_answer` raises `re.error` (the malformed first pattern aborts the
scan) instead of returning that entry's answer `"B"`. -/
theorem faq_rule_first_wins_cex :
    litEngine.searchCI (pyStrip "hi") "oh hi" = true
    ∧ (∃ item ∈ kbBadFirst.faq, ∃ p ∈ splitPipe item.q,
        litEngine.searchCI (pyStrip p) "oh hi" = true)
    ∧ faq_answer litEngine zeroScorer kbBadFirst "oh hi" 78 = .error .reError
    ∧ faq_answer litEngine zeroScorer kbBadFirst "oh hi" 78 ≠ .ok (some "B") := by
  decide

/-- Claim C3 witness: the amended theorem applied to the well-formed
`kbDelivery` and the utterance of the spec's own example. -/
theorem faq_rule_first_wins_wit :
    ∃ pre item post, kbDelivery.faq = pre ++ item :: post
      ∧ (∀ it2 ∈ pre, ∀ p ∈ splitPipe it2.q,
          litEngine.searchCI (pyStrip p) "Яка у вас доставка?" = false)
      ∧ (∃ p ∈ splitPipe item.q,
          litEngine.searchCI (pyStrip p) "Яка у вас доставка?" = true)
      ∧ faq_answer litEngine zeroScorer kbDelivery "Яка у вас доставка?" 78
          = .ok (some item.a)
      ∧ faq_answer litEngine zeroScorer kbDelivery "Яка у вас доставка?" 78
          = faq_answer litEngine hiScorer kbDelivery "Яка у вас доставка?" 78 :=
  faq_rule_first_wins litEngine zeroScorer hiScorer kbDelivery
    "Яка у вас доставка?" 78 (by decide) (by decide)

/-- Claim C4 counterexample: in `kbBadOnly` no sub-pattern matches `"hi"`
and the (constant 100) fuzzy score clears the threshold 78, yet
`faq_answer` raises `re.error` instead of returning the best entry's
answer, because the malformed pattern aborts the rule scan before the
fuzzy phase. -/
theorem faq_fuzzy_threshold_cex :
    (∀ item ∈ kbBadOnly.faq, ∀ p ∈ splitPipe item.q,
        litEngine.searchCI (pyStrip p) "hi" = false)
    ∧ hiScorer "hi" "(" ≥ 78
    ∧ faq_answer litEngine hiScorer kbBadOnly "hi" 78 = .error .reError
    ∧ faq_answer litEngine hiScorer kbBadOnly "hi" 78 ≠ .ok (some "A") := by
  decide

/-- Claim C4 witness: the amended theorem applied to `kbDelivery` with a
scorer that prefers the second entry's question text and an utterance with
no rule match. -/
theorem faq_fuzzy_threshold_wit :
    (kbDelivery.faq = [] →
      faq_answer litEngine pickScorer kbDelivery "коли ви працюєте" 78 = .ok none)
    ∧ (kbDelivery.faq ≠ [] → ∃ i item, kbDelivery.faq.get? i = some item
        ∧ (∀ j it2, kbDelivery.faq.get? j = some it2 →
            pickScorer "коли ви працюєте" it2.q ≤ pickScorer "коли ви працюєте" item.q)
        ∧ (∀ j it2, j < i → kbDelivery.faq.get? j = some it2 →
            pickScorer "коли ви працюєте" it2.q < pickScorer "коли ви працюєте" item.q)
        ∧ (pickScorer "коли ви працюєте" item.q ≥ 78 →
            faq_answer litEngine pickScorer kbDelivery "коли ви працюєте" 78
              = .ok (some item.a))
        ∧ (pickScorer "коли ви працюєте" item.q < 78 →
            faq_answer litEngine pickScorer kbDelivery "коли ви працюєте" 78
              = .ok none)) :=
  faq_fuzzy_threshold litEngine pickScorer kbDelivery "коли ви працюєте" 78
    (by decide) (by decide)

/-- Claim C5 counterexample: the claim says a malformed pattern is skipped
and resolution continues; in `kbBadFirst` the second entry matches
`"hi there"`, yet `faq_answer` raises `re.error`. -/
theorem faq_malformed_raises_cex :
    litEngine.compiles "(" = false
    ∧ litEngine.searchCI (pyStrip "hi") "hi there" = true
    ∧ faq_answer litEngine zeroScorer kbBadFirst "hi there" 78 = .error .reError := by
  decide

/-- Claim C5 witness: the amended theorem applied to a knowledge base whose
second entry's second sub-pattern is malformed. -/
theorem faq_malformed_raises_wit :
    faq_answer litEngine zeroScorer ⟨kbPre ++ badItem :: [], [], ⟨"", ""⟩⟩
      "hello world" 78 = .error .reError :=
  faq_malformed_raises litEngine zeroScorer 78 kbPre [] badItem [] ⟨"", ""⟩
    "hello world" ["a"] [] "(" (by decide) (by decide) (by decide) (by decide)

/-- Claim C6: `gen_ai_reply` never raises — with no configured client, or a
client whose call fails with any error, it returns the fixed non-empty
canned sentence (one of two) chosen by the effective language (the hint
when non-empty, else the detected language). -/
theorem gen_ai_reply_degrades (sysPrompt kbSer t hint : String)
    (call : String → String → Except String String)
    (hfail : ∀ s u, ∃ e, call s u = Except.error e) :
    ∃ msg, (msg = ruFallback ∨ msg = ukFallback) ∧ msg ≠ ""
      ∧ msg = (if (if hint ≠ "" then hint else detect_lang t) = "ru"
               then ruFallback else ukFallback)
      ∧ gen_ai_reply none sysPrompt kbSer t hint = msg
      ∧ gen_ai_reply (some call) sysPrompt kbSer t hint = msg := by
  have hne : ruFallback ≠ "" := by decide
  have hne2 : ukFallback ≠ "" := by decide
  refine ⟨if (if hint ≠ "" then hint else detect_lang t) = "ru"
          then ruFallback else ukFallback, ?_, ?_, rfl, ?_, ?_⟩
  · by_cases h : (if hint ≠ "" then hint else detect_lang t) = "ru"
    · rw [if_pos h]; left; rfl
    · rw [if_neg h]; right; rfl
  · by_cases h : (if hint ≠ "" then hint else detect_lang t) = "ru"
    · rw [if_pos h]; exact hne
    · rw [if_neg h]; exact hne2
  · rfl
  · obtain ⟨e, he⟩ := hfail
      (sysPrompt ++ "\n\nYAML:\n" ++ kbSer ++ "\n\nLanguage to respond: " ++
        (if hint ≠ "" then hint else detect_lang t)) t
    show (match call (sysPrompt ++ "\n\nYAML:\n" ++ kbSer ++
        "\n\nLanguage to respond: " ++ (if hint ≠ "" then hint else detect_lang t)) t with
      | Except.ok r => pyStrip r
      | Except.error _ =>
        if (if hint ≠ "" then hint else detect_lang t) = "ru"
        then ruFallback else ukFallback) = _
    rw [he]

/-- Claim C6 witness: a client that always times out, with hint `"ru"`. -/
theorem gen_ai_reply_degrades_wit :
    ∃ msg, (msg = ruFallback ∨ msg = ukFallback) ∧ msg ≠ ""
      ∧ msg = (if (if ("ru" : String) ≠ "" then "ru"
                   else detect_lang "Скільки коштує доставка?") = "ru"
               then ruFallback else ukFallback)
      ∧ gen_ai_reply none "SYS" "YAMLDATA" "Скільки коштує доставка?" "ru" = msg
      ∧ gen_ai_reply (some (fun _ _ => Except.error "timeout")) "SYS" "YAMLDATA"
          "Скільки коштує доставка?" "ru" = msg :=
  gen_ai_reply_degrades "SYS" "YAMLDATA" "Скільки коштує доставка?" "ru"
    (fun _ _ => Except.error "timeout") (fun _ _ => ⟨"timeout", rfl⟩)

/-- Claim C7: `detect_lang` computes exactly the spec-side detector — count
marker-word containment in the lower-cased text per tag, return the tag
with the strictly higher count, ties (hence also empty input) resolving to
`"uk"` — and always returns one of the two supported tags.  It is a pure
function of its argument by construction. -/
theorem detect_lang_matches_spec (t : String) :
    detect_lang t = detectSpec t
    ∧ (detect_lang t = "ru" ∨ detect_lang t = "uk") := by
  constructor
  · unfold detect_lang detectSpec tagCount
    by_cases h : List.countP (fun w => strContains w (pyLower t)) ru_markers >
        List.countP (fun w => strContains w (pyLower t)) uk_markers
    · simp [h]
    · simp [h]
  · unfold detect_lang
    by_cases h : List.countP (fun w => strContains w (pyLower t)) ru_markers >
        List.countP (fun w => strContains w (pyLower t)) uk_markers
    · left; simp [h]
    · right; simp [h]

/-- Claim C9: a persisted row consists of exactly the six cells timestamp,
user_id, username, full_name, phone, note (the `LeadRow` type); the three
answer cells come from `answers.get` of exactly those three keys, an
absent answer becomes the empty string, and an answer stored under any
other key does not change the persisted row at all. -/
theorem save_lead_columns (ts : String) (uid : Nat) (uname : String)
    (answers : List (String × String)) (k v : String) :
    save_lead ts uid uname answers
      = ⟨ts, uid, uname, (getKey answers "full_name").getD "",
          (getKey answers "phone").getD "", (getKey answers "note").getD ""⟩
    ∧ (getKey answers "full_name" = none → (save_lead ts uid uname answers).full_name = "")
    ∧ (getKey answers "phone" = none → (save_lead ts uid uname answers).phone = "")
    ∧ (getKey answers "note" = none → (save_lead ts uid uname answers).note = "")
    ∧ (k ≠ "full_name" → k ≠ "phone" → k ≠ "note" →
        save_lead ts uid uname (setKey answers k v) = save_lead ts uid uname answers) := by
  refine ⟨rfl, ?_, ?_, ?_, ?_⟩
  · intro h; simp [save_lead, h]
  · intro h; simp [save_lead, h]
  · intro h; simp [save_lead, h]
  · intro h1 h2 h3
    simp [save_lead, getKey_setKey_ne answers "full_name" k v h1,
      getKey_setKey_ne answers "phone" k v h2, getKey_setKey_ne answers "note" k v h3]

/-- Claim C9 witness: an answer under the foreign key `email` is dropped
from the row, and the missing `phone` answer is persisted as `""`. -/
theorem save_lead_columns_wit :
    save_lead "T" 42 "u" (setKey [("full_name", "Олена")] "email" "e@x")
      = save_lead "T" 42 "u" [("full_name", "Олена")]
    ∧ (save_lead "T" 42 "u" [("full_name", "Олена")]).phone = "" :=
  ⟨(save_lead_columns "T" 42 "u" [("full_name", "Олена")] "email" "e@x").2.2.2.2
      (by decide) (by decide) (by decide),
   (save_lead_columns "T" 42 "u" [("full_name", "Олена")] "email" "e@x").2.2.1
      (by decide)⟩

/-! ## Router lemmas -/

theorem text_router_active (env : Env) (st : BotState) (uid : Nat)
    (uname raw : String) (s : LeadSession) (hraw : raw ≠ "")
    (hs : st.sessions uid = some s) :
    text_router env st uid uname raw
      = leadFlowStep env.kb env.botLang env.ts st uid uname (pyStrip raw) s := by
  simp only [text_router, if_neg hraw, hs]

theorem leadFlowStep_only_fields (kb kb' : KB) (h : kb'.leadFields = kb.leadFields)
    (botLang ts : String) (st : BotState) (uid : Nat) (uname text : String)
    (s : LeadSession) :
    leadFlowStep kb' botLang ts st uid uname text s
      = leadFlowStep kb botLang ts st uid uname text s := by
  simp only [leadFlowStep, h]

theorem leadCmd_fst (kb : KB) (st : BotState) (uid : Nat) :
    (leadCmd kb st uid).1
      = ⟨fun u => if u = uid then some ⟨0, []⟩ else st.sessions u, st.leads⟩ := by
  cases hg : kb.leadFields.get? 0 with
  | none => simp only [leadCmd, hg]
  | some f => simp only [leadCmd, hg]

theorem leadCmd_inv (kb : KB) (st : BotState) (uid : Nat) (h : SessionInv kb st) :
    SessionInv kb (leadCmd kb st uid).1 := by
  rw [leadCmd_fst]
  intro u s hu
  dsimp at hu
  by_cases hu2 : u = uid
  · rw [if_pos hu2] at hu
    cases hu
    exact Nat.zero_le _
  · rw [if_neg hu2] at hu
    exact h u s hu

theorem leadFlowStep_inv (kb : KB) (botLang ts : String) (st : BotState)
    (uid : Nat) (uname text : String) (s : LeadSession) (h : SessionInv kb st) :
    SessionInv kb (leadFlowStep kb botLang ts st uid uname text s).1 := by
  cases hfld : kb.leadFields.get? s.step with
  | none => simp only [leadFlowStep, hfld]; exact h
  | some fld =>
    simp only [leadFlowStep, hfld]
    by_cases hge : s.step + 1 ≥ kb.leadFields.length
    · rw [if_pos hge]
      intro u s2 hu
      dsimp at hu
      by_cases hu2 : u = uid
      · rw [if_pos hu2] at hu
        cases hu
      · rw [if_neg hu2] at hu
        exact h u s2 hu
    · rw [if_neg hge]
      have hle : s.step + 1 ≤ kb.leadFields.length := by omega
      cases hfld2 : kb.leadFields.get? (s.step + 1) with
      | some fld2 =>
        intro u s2 hu
        dsimp at hu
        by_cases hu2 : u = uid
        · rw [if_pos hu2] at hu
          cases hu
          exact hle
        · rw [if_neg hu2] at hu
          exact h u s2 hu
      | none =>
        intro u s2 hu
        dsimp at hu
        by_cases hu2 : u = uid
        · rw [if_pos hu2] at hu
          cases hu
          exact hle
        · rw [if_neg hu2] at hu
          exact h u s2 hu

/-- Claim C2: while a user has an active session, `text_router` delegates
the whole message to the lead flow — the outcome is exactly the lead-flow
step on the stripped text, it is unchanged under replacing the regex
engine, the fuzzy scorer, the AI client, the prompts, the FAQ entries and
the company data (so neither the quick-reply branch, nor the FAQ resolver,
nor the AI fallback is consulted, even for texts that would match them),
and the text is recorded as the current field's answer (in the advanced
session or in the persisted record). -/
theorem router_lead_priority (env env2 : Env) (st : BotState) (uid : Nat)
    (uname raw : String) (s : LeadSession)
    (hraw : raw ≠ "") (hs : st.sessions uid = some s)
    (hf : env2.kb.leadFields = env.kb.leadFields)
    (hl : env2.botLang = env.botLang) (hts : env2.ts = env.ts) :
    text_router env st uid uname raw
      = leadFlowStep env.kb env.botLang env.ts st uid uname (pyStrip raw) s
    ∧ text_router env2 st uid uname raw = text_router env st uid uname raw
    ∧ ∀ fld, env.kb.leadFields.get? s.step = some fld →
        (text_router env st uid uname raw).1.sessions uid
            = some ⟨s.step + 1, setKey s.answers fld.name (pyStrip raw)⟩
        ∨ (text_router env st uid uname raw).1.leads
            = st.leads ++ [save_lead env.ts uid uname
                (setKey s.answers fld.name (pyStrip raw))] := by
  have h1 := text_router_active env st uid uname raw s hraw hs
  have h2 := text_router_active env2 st uid uname raw s hraw hs
  refine ⟨h1, ?_, ?_⟩
  · rw [h1, h2, hl, hts]
    exact leadFlowStep_only_fields env.kb env2.kb hf env.botLang env.ts st uid uname
      (pyStrip raw) s
  · intro fld hfld
    rw [h1]
    simp only [leadFlowStep, hfld]
    by_cases hge : s.step + 1 ≥ env.kb.leadFields.length
    · rw [if_pos hge]
      right
      simp
    · rw [if_neg hge]
      cases hfld2 : env.kb.leadFields.get? (s.step + 1) with
      | some fld2 => left; simp
      | none => left; simp

/-- Claim C8: the invariant `step <= len(leadFields)` on every stored
session is preserved by the `/lead` handler and by `text_router`, and a
message that takes a session's step from `len - 1` to `len` removes that
session in the same handling step, right after appending the persisted
record built from its answers. -/
theorem session_step_invariant (env : Env) (st : BotState) (uid : Nat)
    (uname t : String) (hinv : SessionInv env.kb st) :
    SessionInv env.kb (leadCmd env.kb st uid).1
    ∧ SessionInv env.kb (text_router env st uid uname t).1
    ∧ (∀ s fld, st.sessions uid = some s → t ≠ "" →
        env.kb.leadFields.get? s.step = some fld →
        s.step + 1 = env.kb.leadFields.length →
        (text_router env st uid uname t).1.sessions uid = none
        ∧ (text_router env st uid uname t).1.leads
            = st.leads ++ [save_lead env.ts uid uname
                (setKey s.answers fld.name (pyStrip t))]) := by
  refine ⟨leadCmd_inv env.kb st uid hinv, ?_, ?_⟩
  · by_cases ht : t = ""
    · simp only [text_router, if_pos ht]
      exact hinv
    · cases hs : st.sessions uid with
      | some s =>
        rw [text_router_active env st uid uname t s ht hs]
        exact leadFlowStep_inv env.kb env.botLang env.ts st uid uname (pyStrip t) s hinv
      | none =>
        simp only [text_router, if_neg ht, hs]
        by_cases hq1 : pyLower (pyStrip t) = "залишити заявку"
            ∨ pyLower (pyStrip t) = "оставить заявку"
        · rw [if_pos hq1]
          exact leadCmd_inv env.kb st uid hinv
        · rw [if_neg hq1]
          by_cases hq2 : pyLower (pyStrip t) = "контакти"
              ∨ pyLower (pyStrip t) = "контакты"
          · rw [if_pos hq2]
            exact hinv
          · rw [if_neg hq2]
            by_cases hq3 : pyLower (pyStrip t) = "години роботи"
                ∨ pyLower (pyStrip t) = "часы работы"
            · rw [if_pos hq3]
              exact hinv
            · rw [if_neg hq3]
              cases hfa : faq_answer env.engine env.scorer env.kb (pyStrip t) 78 with
              | error e => exact hinv
              | ok o => cases o with
                | some a => exact hinv
                | none => exact hinv
  · intro s fld hs ht hfld hlen
    rw [text_router_active env st uid uname t s ht hs]
    simp only [leadFlowStep, hfld]
    have hge : s.step + 1 ≥ env.kb.leadFields.length := by omega
    rw [if_pos hge]
    constructor <;> simp

/-- Claim C10: starting a lead session against an empty `leadFields` list —
by the `/lead` command or by the start-lead quick-reply phrase — raises
`IndexError` while emitting the prompt for field 0 instead of returning a
reply (the freshly created session is left behind in the session map). -/
theorem lead_start_empty_fields (env : Env) (st : BotState) (uid : Nat)
    (uname : String) (hemp : env.kb.leadFields = [])
    (hs : st.sessions uid = none) :
    (leadCmd env.kb st uid).2 = .error .indexError
    ∧ (leadCmd env.kb st uid).1.sessions uid = some ⟨0, []⟩
    ∧ (text_router env st uid uname "Залишити заявку").2 = .error .indexError := by
  have hcmd : (leadCmd env.kb st uid).2 = .error .indexError := by
    simp [leadCmd, hemp]
  refine ⟨hcmd, ?_, ?_⟩
  · rw [leadCmd_fst]
    simp
  · have hne : ("Залишити заявку" : String) ≠ "" := by decide
    simp only [text_router, if_neg hne, hs]
    have hcond : pyLower (pyStrip "Залишити заявку") = "залишити заявку"
        ∨ pyLower (pyStrip "Залишити заявку") = "оставить заявку" :=
      Or.inl (by decide)
    rw [if_pos hcond]
    exact hcmd

/-- Claim C2 witness: user 7 has an active session; the text `"Контакти"`
would match a quick-reply phrase, yet it is consumed by the lead flow, and
the outcome is unchanged under `envB`'s different FAQ entries, company
data, scorer, engine and client. -/
theorem router_lead_priority_wit :
    text_router envA stActive 7 "u" "Контакти"
      = leadFlowStep envA.kb envA.botLang envA.ts stActive 7 "u"
          (pyStrip "Контакти") ⟨0, []⟩
    ∧ text_router envB stActive 7 "u" "Контакти"
        = text_router envA stActive 7 "u" "Контакти"
    ∧ ((text_router envA stActive 7 "u" "Контакти").1.sessions 7
          = some ⟨1, setKey [] "full_name" (pyStrip "Контакти")⟩
      ∨ (text_router envA stActive 7 "u" "Контакти").1.leads
          = stActive.leads ++ [save_lead envA.ts 7 "u"
              (setKey [] "full_name" (pyStrip "Контакти"))]) :=
  have h := router_lead_priority envA envB stActive 7 "u" "Контакти" ⟨0, []⟩
    (by decide) rfl rfl rfl rfl
  ⟨h.1, h.2.1, h.2.2 ⟨"full_name", "Як вас звати?"⟩ rfl⟩

/-- Claim C8 witness: the completing message removes user 7's session and
appends exactly the persisted record. -/
theorem session_step_invariant_wit :
    (text_router envA stNear 7 "u" "мій коментар").1.sessions 7 = none
    ∧ (text_router envA stNear 7 "u" "мій коментар").1.leads
        = stNear.leads ++ [save_lead envA.ts 7 "u"
            (setKey [("full_name", "Олена"), ("phone", "0501234567")] "note"
              (pyStrip "мій коментар"))] :=
  (session_step_invariant envA stNear 7 "u" "мій коментар"
    (by
      intro uid s h
      by_cases h7 : uid = 7
      · subst h7
        have hd : stNear.sessions 7
            = some ⟨2, [("full_name", "Олена"), ("phone", "0501234567")]⟩ := rfl
        rw [hd] at h
        cases h
        decide
      · have hd : stNear.sessions uid = none := by
          show (if uid = 7 then
              some (⟨2, [("full_name", "Олена"), ("phone", "0501234567")]⟩ : LeadSession)
            else none) = none
          rw [if_neg h7]
        rw [hd] at h
        cases h)).2.2
    ⟨2, [("full_name", "Олена"), ("phone", "0501234567")]⟩ ⟨"note", "Коментар?"⟩
    rfl (by decide) (by decide) (by decide)

/-- Claim C10 witness: the empty-field knowledge base makes both start
paths raise `IndexError`, leaving the fresh session behind. -/
theorem lead_start_empty_fields_wit :
    (leadCmd (mkEnv kbNoFields).kb emptyState 5).2 = .error .indexError
    ∧ (leadCmd (mkEnv kbNoFields).kb emptyState 5).1.sessions 5 = some ⟨0, []⟩
    ∧ (text_router (mkEnv kbNoFields) emptyState 5 "u" "Залишити заявку").2
        = .error .indexError :=
  lead_start_empty_fields (mkEnv kbNoFields) emptyState 5 "u" rfl rfl

/-! ## Lead-flow run lemmas -/

theorem runTexts_complete (env : Env) (uid : Nat) (uname : String) :
    ∀ (texts : List String) (s : Nat) (a : List (String × String)) (st : BotState),
    texts ≠ [] → (∀ t ∈ texts, t ≠ "") →
    st.sessions uid = some ⟨s, a⟩ →
    s + texts.length = env.kb.leadFields.length →
    runTexts env uid uname st texts
      = ⟨fun u => if u = uid then none else st.sessions u,
         st.leads ++ [save_lead env.ts uid uname
           (collectFrom env.kb.leadFields s a texts)]⟩ := by
  intro texts
  induction texts with
  | nil => intro s a st hne; exact absurd rfl hne
  | cons t more ih =>
    intro s a st _ hts hs hlen
    have ht : t ≠ "" := hts t (by clear * -; simp)
    have hslt : s < env.kb.leadFields.length := by
      simp only [List.length_cons] at hlen; omega
    obtain ⟨fld, hfld⟩ : ∃ fld, env.kb.leadFields.get? s = some fld := by
      cases hg : env.kb.leadFields.get? s with
      | none => rw [List.get?_eq_none] at hg; omega
      | some f => exact ⟨f, rfl⟩
    have hrt : runTexts env uid uname st (t :: more)
        = runTexts env uid uname (text_router env st uid uname t).1 more := rfl
    rw [hrt, text_router_active env st uid uname t ⟨s, a⟩ ht hs]
    cases more with
    | nil =>
      have hge : s + 1 ≥ env.kb.leadFields.length := by
        simp only [List.length_cons, List.length_nil] at hlen; omega
      simp only [leadFlowStep, hfld, if_pos hge]
      simp only [runTexts, collectFrom, hfld]
    | cons t2 rest =>
      have hnge : ¬ (s + 1 ≥ env.kb.leadFields.length) := by
        simp only [List.length_cons] at hlen; omega
      obtain ⟨fld2, hfld2⟩ : ∃ fld2, env.kb.leadFields.get? (s + 1) = some fld2 := by
        cases hg : env.kb.leadFields.get? (s + 1) with
        | none => rw [List.get?_eq_none] at hg; omega
        | some f => exact ⟨f, rfl⟩
      simp only [leadFlowStep, hfld, if_neg hnge, hfld2]
      rw [ih (s + 1) (setKey a fld.name (pyStrip t)) _ (by clear * -; simp)
        (fun x hx => hts x (by clear * - hx; simp [hx])) (by simp)
        (by simp only [List.length_cons] at hlen ⊢; omega)]
      congr 1
      · funext u
        by_cases hu : u = uid
        · rw [if_pos hu, if_pos hu]
        · rw [if_neg hu, if_neg hu]
          dsimp only
          rw [if_neg hu]
      · simp only [collectFrom, hfld]

theorem names_distinct (fields : List LeadField)
    (hnd : (fields.map (fun f => f.name)).Nodup)
    (i j : Nat) (fi fj : LeadField) (hi : fields.get? i = some fi)
    (hj : fields.get? j = some fj) (hij : i ≠ j) : fi.name ≠ fj.name := by
  intro hname
  have hmi : (fields.map (fun f => f.name)).get? i = some fi.name := by
    rw [List.get?_map, hi]; rfl
  have hmj : (fields.map (fun f => f.name)).get? j = some fj.name := by
    rw [List.get?_map, hj]; rfl
  obtain ⟨hlt, -⟩ := List.get?_eq_some.mp hi
  have hlen : i < (fields.map (fun f => f.name)).length := by
    rw [List.length_map]; exact hlt
  exact hij (List.get?_inj hlen hnd (by rw [hmi, hmj, hname]))

theorem collectFrom_no_touch (fields : List LeadField) :
    ∀ (texts : List String) (s : Nat) (a : List (String × String)) (k : String),
    (∀ j fldj, s ≤ j → fields.get? j = some fldj → fldj.name ≠ k) →
    getKey (collectFrom fields s a texts) k = getKey a k := by
  intro texts
  induction texts with
  | nil => intro s a k _; rfl
  | cons t more ih =>
    intro s a k h
    cases hf : fields.get? s with
    | none => simp only [collectFrom, hf]
    | some fld =>
      simp only [collectFrom, hf]
      rw [ih (s + 1) _ k (fun j fldj hj hjf => h j fldj (by omega) hjf)]
      exact getKey_setKey_ne a k fld.name (pyStrip t) (h s fld (le_refl s) hf)

theorem collectFrom_get (fields : List LeadField)
    (hnd : (fields.map (fun f => f.name)).Nodup) :
    ∀ (texts : List String) (s i : Nat) (a : List (String × String))
      (fld : LeadField) (t0 : String),
    fields.get? i = some fld → s ≤ i → texts.get? (i - s) = some t0 →
    s + texts.length ≤ fields.length →
    getKey (collectFrom fields s a texts) fld.name = some (pyStrip t0) := by
  intro texts
  induction texts with
  | nil => intro s i a fld t0 _ _ ht _; simp at ht
  | cons t more ih =>
    intro s i a fld t0 hi hsi ht hlen
    have hslt : s < fields.length := by
      simp only [List.length_cons] at hlen; omega
    obtain ⟨flds, hflds⟩ : ∃ f, fields.get? s = some f := by
      cases hg : fields.get? s with
      | none => rw [List.get?_eq_none] at hg; omega
      | some f => exact ⟨f, rfl⟩
    simp only [collectFrom, hflds]
    by_cases hie : i = s
    · subst hie
      have h0 : i - i = 0 := by omega
      rw [h0] at ht
      simp only [List.get?, Option.some.injEq] at ht
      have hfe : flds = fld := by
        rw [hflds] at hi
        injection hi
      subst hfe
      rw [collectFrom_no_touch fields more (i + 1) _ flds.name
        (fun j fldj hj hjf =>
          names_distinct fields hnd j i fldj flds hjf hi (by omega))]
      rw [ht]
      exact getKey_setKey_self a flds.name (pyStrip t0)
    · have hlt : s < i := by omega
      have hms : i - s = (i - (s + 1)) + 1 := by omega
      rw [hms] at ht
      simp only [List.get?] at ht
      exact ih (s + 1) i (setKey a flds.name (pyStrip t)) fld t0 hi (by omega) ht
        (by simp only [List.length_cons] at hlen; omega)

/-- Claim C1 (amended: the persisted row keeps only the three columns
`full_name`, `phone`, `note`, so the claim holds for knowledge bases whose
lead fields are nonempty, pairwise distinct and drawn from those three
names; answers are recorded whitespace-stripped): starting a session then
submitting exactly N nonempty texts appends exactly one persisted record in
which every field is populated, in field-definition order, with the
corresponding stripped text, and the user's session is absent afterward. -/
theorem lead_flow_completion (env : Env) (st : BotState) (uid : Nat)
    (uname : String) (texts : List String)
    (h1 : env.kb.leadFields ≠ [])
    (h2 : (env.kb.leadFields.map (fun f => f.name)).Nodup)
    (h3 : ∀ f ∈ env.kb.leadFields,
      f.name = "full_name" ∨ f.name = "phone" ∨ f.name = "note")
    (h4 : texts.length = env.kb.leadFields.length)
    (h5 : ∀ t ∈ texts, t ≠ "") :
    (runTexts env uid uname (leadCmd env.kb st uid).1 texts).leads
      = st.leads ++ [save_lead env.ts uid uname
          (collectFrom env.kb.leadFields 0 [] texts)]
    ∧ (runTexts env uid uname (leadCmd env.kb st uid).1 texts).sessions uid = none
    ∧ (∀ i fld t0, env.kb.leadFields.get? i = some fld → texts.get? i = some t0 →
        rowLookup (save_lead env.ts uid uname
            (collectFrom env.kb.leadFields 0 [] texts)) fld.name
          = some (pyStrip t0)) := by
  have htne : texts ≠ [] := by
    intro he
    rw [he] at h4
    simp only [List.length_nil] at h4
    exact h1 (List.length_eq_zero.mp h4.symm)
  have hsess : (leadCmd env.kb st uid).1.sessions uid = some ⟨0, []⟩ := by
    rw [leadCmd_fst]; simp
  have hleads : (leadCmd env.kb st uid).1.leads = st.leads := by rw [leadCmd_fst]
  have hlen : 0 + texts.length = env.kb.leadFields.length := by omega
  have hrun := runTexts_complete env uid uname texts 0 [] (leadCmd env.kb st uid).1
    htne h5 hsess hlen
  refine ⟨?_, ?_, ?_⟩
  · rw [hrun]
    dsimp only
    rw [hleads]
  · rw [hrun]
    dsimp only
    rw [if_pos rfl]
  · intro i fld t0 hfld ht0
    have hget := collectFrom_get env.kb.leadFields h2 texts 0 i [] fld t0 hfld
      (Nat.zero_le i) (by simpa using ht0) (by omega)
    have hmem : fld ∈ env.kb.leadFields := List.get?_mem hfld
    rcases h3 fld hmem with hn | hn | hn
    · rw [hn] at hget ⊢
      simp only [rowLookup, save_lead, if_pos rfl]
      rw [hget]
      simp
    · rw [hn] at hget ⊢
      have e1 : ("phone" : String) ≠ "full_name" := by decide
      simp only [rowLookup, save_lead, if_neg e1, if_pos rfl]
      rw [hget]
      simp
    · rw [hn] at hget ⊢
      have e1 : ("note" : String) ≠ "full_name" := by decide
      have e2 : ("note" : String) ≠ "phone" := by decide
      simp only [rowLookup, save_lead, if_neg e1, if_neg e2, if_pos rfl]
      rw [hget]
      simp

/-- Claim C1 counterexample: with the single lead field named `email`,
starting a session and submitting one text does append exactly one row and
drop the session, but the persisted record does not contain the submitted
text under the field's name — the row's three fixed answer columns are all
empty, so "all N fields populated with the submitted texts" fails. -/
theorem lead_flow_completion_cex :
    (runTexts (mkEnv kbEmail) 42 "u" (leadCmd (mkEnv kbEmail).kb emptyState 42).1
        ["bob@example.com"]).leads
      = [⟨"T0", 42, "u", "", "", ""⟩]
    ∧ (runTexts (mkEnv kbEmail) 42 "u" (leadCmd (mkEnv kbEmail).kb emptyState 42).1
        ["bob@example.com"]).sessions 42 = none
    ∧ ∀ r ∈ (runTexts (mkEnv kbEmail) 42 "u"
        (leadCmd (mkEnv kbEmail).kb emptyState 42).1 ["bob@example.com"]).leads,
        rowLookup r "email" ≠ some "bob@example.com" := by
  decide

/-- Claim C1 witness: the three-field interview `full_name`, `phone`,
`note` run on three texts. -/
theorem lead_flow_completion_wit :
    (runTexts envA 9 "v" (leadCmd envA.kb emptyState 9).1
        ["Олена", "0501234567", "дякую"]).leads
      = emptyState.leads ++ [save_lead envA.ts 9 "v"
          (collectFrom envA.kb.leadFields 0 [] ["Олена", "0501234567", "дякую"])]
    ∧ (runTexts envA 9 "v" (leadCmd envA.kb emptyState 9).1
        ["Олена", "0501234567", "дякую"]).sessions 9 = none
    ∧ rowLookup (save_lead envA.ts 9 "v"
          (collectFrom envA.kb.leadFields 0 [] ["Олена", "0501234567", "дякую"]))
        "full_name" = some (pyStrip "Олена") :=
  have h := lead_flow_completion envA emptyState 9 "v"
    ["Олена", "0501234567", "дякую"] (by decide) (by decide) (by decide)
    (by decide) (by decide)
  ⟨h.1, h.2.1, h.2.2 0 ⟨"full_name", "Як вас звати?"⟩ "Олена" rfl rfl⟩
